import Mathlib

/-!
# Command execution core (`common/exec/server-exec.go`)

A shallow embedding of the `Command` type of package `exec`: the pre/post
execution hooks of its environment store, the two run operations (`Run`,
`RunOnTTY`), `WriteTTY`, `Pid`, `NewCommand` and the `copyBuffer` relay.

Modelling conventions.

* Side effects are made explicit.  Hooks act on an abstract world `σ`; every
  observable action (hook call, process start, wait, callback, ...) is
  recorded, in the order it happens, in a list of `Event`s.
* What the operating system and the Go libraries answer (`StdoutPipe`,
  `Start`, `Wait`, `pty.Start`, `io.Copy`, `Close`) is an input of the model
  (`Outcomes`): the theorems quantify over every answer.
* A `go func() { ... }()` statement is modelled by a separate definition for
  the body of the goroutine (`Command.RunTask`, `Command.RunOnTTYTask`) and a
  flag `spawned` in the result of the synchronous part.
* `Command.RunExec` is the main line of a pipe-mode execution, `Run` and then
  its wait goroutine.  `Command.RunScheduled` is the execution with the two
  relay goroutines and the sink as well, interleaved by a schedule; a relay
  that panics ends the process.
* `Command` values are the ones `NewCommand` builds: `cmd` and `envStore`
  are allocated (non-nil) pointers.
* `InternalErrorExitCode` is declared elsewhere in package `exec`; it is a
  parameter of the definitions that use it.
-/

namespace Exec

/-- One byte of a stream. -/
abbrev Byte := UInt8

/-- Go `error` values met by this file.  Errors made by `fmt.Errorf` in
`server-exec.go` have one constructor per format string; they embed the
inner error with `%v`, so `errors.Is`/`errors.As` do not see through them. -/
inductive GoError where
  /-- an error produced outside this file (a hook, the OS, a library) -/
  | ext (msg : String)
  /-- an error `err` with `errors.Is(err, exec.ErrNotFound)` -/
  | notFound (msg : String)
  /-- a `*exec.ExitError` whose `ExitCode()` is `exitCode` -/
  | exitError (exitCode : Int)
  /-- the sentinel `io.EOF` -/
  | EOF
  /-- `fmt.Errorf("failed storing environment variable %q, err=%v", key, err)` -/
  | envVarFailed (key : String) (err : GoError)
  /-- `fmt.Errorf("failed executing pre command, err=%v", err)` -/
  | preCommandFailed (err : GoError)
  /-- `fmt.Errorf("failed executing pre execution command, err=%v", err)` -/
  | preExecutionCommandFailed (err : GoError)
  /-- `fmt.Errorf("failed starting pty, err=%v", err)` -/
  | startingPtyFailed (err : GoError)
  deriving DecidableEq, Repr

/-- Model of `errors.Is(err, exec.ErrNotFound)`. -/
def GoError.isErrNotFound : GoError → Bool
  | .notFound _ => true
  | _ => false

/-- Model of the type assertion `err.(*exec.ExitError)` followed by
`exErr.ExitCode()`: the exit code when `err` is an exit error. -/
def GoError.asExitError : GoError → Option Int
  | .exitError code => some code
  | _ => none

/-- Observable actions, recorded in program order. -/
inductive Event where
  /-- `c.cmd.StdoutPipe()` returned `err` -/
  | stdoutPipe (err : Option GoError)
  /-- `c.cmd.StderrPipe()` returned `err` -/
  | stderrPipe (err : Option GoError)
  /-- `env.OnPreExec()` of the entry `key` was called and returned `err` -/
  | preExec (key : String) (err : Option GoError)
  /-- `env.OnPostExec()` of the entry `key` was called and returned `err` -/
  | postExec (key : String) (err : Option GoError)
  /-- `c.cmd.Start()` returned `err` -/
  | start (err : Option GoError)
  /-- `stdin.Write(stdinInput)` returned `err` -/
  | stdinWrite (data : List Byte) (err : Option GoError)
  /-- `copyBuffer(pipe, streamWriter, bufSize)` launched a relay -/
  | copyBuffer (pipe : String) (bufSize : Nat)
  /-- `c.cmd.Wait()` returned `err` -/
  | wait (err : Option GoError)
  /-- `pty.Start(c.cmd)` returned `err` -/
  | ptyStart (err : Option GoError)
  /-- `signal.Notify(ch, SIGWINCH)` -/
  | signalNotify
  /-- `ch <- SIGWINCH`, the initial resize -/
  | initialResize
  /-- `signal.Stop(ch); close(ch)` -/
  | signalStop
  /-- `io.Copy(stdoutWriter, ptmx)` returned `err` -/
  | ioCopy (err : Option GoError)
  /-- `ptmx.Close()` returned `err` -/
  | ptyClose (err : Option GoError)
  /-- `c.ptty.Write(data)` -/
  | ptyWrite (data : List Byte)
  /-- `log.Printf(format, ...)` or `fmt.Printf(format, ...)` -/
  | log (format : String)
  /-- `onExecEnd(exitCode, errMsg, a...)` -/
  | onExecEnd (exitCode : Int) (errMsg : String) (a : List (Option GoError))
  /-- `w.Write(buf[:n])` of the relay of `pipe` was accepted by the sink -/
  | sinkWrite (pipe : String) (data : List Byte)
  /-- `panic(err)` in a relay goroutine: the whole process ends here -/
  | panicked (err : GoError)
  deriving DecidableEq, Repr

/-- A hook `func() error`: it may change the world and returns an error or nil. -/
abbrev Hook (σ : Type) := σ → Option GoError × σ

/-- Modelled from the spec: the type `EnvVar` is declared in another file of
the package.  An entry has a key, an optional pre-exec hook and an optional
post-exec hook, each a zero-argument operation that may fail; `none` is a nil
hook. -/
structure EnvVar (σ : Type) where
  Key : String
  OnPreExec : Option (Hook σ)
  OnPostExec : Option (Hook σ)

/-- Modelled from the spec: the type `EnvVarStore` is declared in another file
of the package.  Its `store` is an ordered sequence of entries, and the order
is the invocation order of the hooks: the list is the order in which
`range c.envStore.store` yields the entries. -/
structure EnvVarStore (σ : Type) where
  store : List (EnvVar σ)

/-- The fields of `exec.Cmd` used here. -/
structure Cmd where
  Args : List String
  Env : List String
  /-- `Process`: nil until the process has been started, then its pid -/
  Process : Option Int
  deriving DecidableEq, Repr

/-- Mirror of `type Command struct`.  `ptty` is the pseudo-terminal handle
(nil or a file). -/
structure Command (σ : Type) where
  cmd : Cmd
  envStore : EnvVarStore σ
  ptty : Option Nat

/-- What the environment answers to the calls made by one run. -/
structure Outcomes where
  stdoutPipe : Option GoError
  stderrPipe : Option GoError
  /-- result of `c.cmd.Start()` -/
  start : Option GoError
  /-- pid given to a started process -/
  pid : Int
  /-- result of `stdin.Write(stdinInput)` -/
  stdinWrite : Option GoError
  /-- result of `c.cmd.Wait()` -/
  wait : Option GoError
  /-- result of `pty.Start(c.cmd)` -/
  ptyStart : Option GoError
  /-- file handle returned by a successful `pty.Start` -/
  ptmx : Nat
  /-- result of `io.Copy(stdoutWriter, ptmx)` -/
  ioCopy : Option GoError
  /-- result of `ptmx.Close()` -/
  ptyClose : Option GoError
  deriving DecidableEq, Repr

/-- Mirror of `func (c *Command) Pid() int`.  `c.cmd` is never nil in the
model, so the test `c.cmd != nil` is always true. -/
def Command.Pid {σ : Type} (c : Command σ) : Int :=
  match c.cmd.Process with
  | some pid => pid
  | none => -1

/-- The loop of `OnPreExec` over `c.envStore.store`: result, world after the
hooks that ran, and the hook calls made. -/
def onPreExecLoop {σ : Type} : List (EnvVar σ) → σ → Option GoError × σ × List Event
  | [], w => (none, w, [])
  | env :: rest, w =>
    match env.OnPreExec with
    | none => onPreExecLoop rest w
    | some hook =>
      match hook w with
      | (some err, w1) =>
        (some (GoError.envVarFailed env.Key err), w1, [Event.preExec env.Key (some err)])
      | (none, w1) =>
        match onPreExecLoop rest w1 with
        | (r, w2, evs) => (r, w2, Event.preExec env.Key none :: evs)

/-- Mirror of `func (c *Command) OnPreExec() error`. -/
def Command.OnPreExec {σ : Type} (c : Command σ) (w : σ) : Option GoError × σ × List Event :=
  onPreExecLoop c.envStore.store w

/-- The loop of `OnPostExec` over `c.envStore.store`. -/
def onPostExecLoop {σ : Type} : List (EnvVar σ) → σ → Option GoError × σ × List Event
  | [], w => (none, w, [])
  | env :: rest, w =>
    match env.OnPostExec with
    | none => onPostExecLoop rest w
    | some hook =>
      match hook w with
      | (some err, w1) =>
        (some (GoError.envVarFailed env.Key err), w1, [Event.postExec env.Key (some err)])
      | (none, w1) =>
        match onPostExecLoop rest w1 with
        | (r, w2, evs) => (r, w2, Event.postExec env.Key none :: evs)

/-- Mirror of `func (c *Command) OnPostExec() error`. -/
def Command.OnPostExec {σ : Type} (c : Command σ) (w : σ) : Option GoError × σ × List Event :=
  onPostExecLoop c.envStore.store w

/-- Result of the synchronous part of a run operation. -/
structure RunResult (σ : Type) where
  /-- the returned `error` -/
  err : Option GoError
  /-- the receiver after the call -/
  cmd : Command σ
  world : σ
  events : List Event
  /-- whether the wait goroutine was launched -/
  spawned : Bool

/-- Body of the goroutine launched by `Run`
(`go func() { exitCode = 0; err := c.cmd.Wait(); ... }()`). -/
def Command.RunTask {σ : Type} (InternalErrorExitCode : Int) (o : Outcomes)
    (c : Command σ) (w : σ) : σ × List Event :=
  let exitCode : Int := 0
  let err := o.wait
  let exitCode : Int :=
    match err with
    | none => exitCode
    | some e =>
      match e.asExitError with
      | some code => if code = -1 then InternalErrorExitCode else code
      | none => exitCode
  match c.OnPostExec w with
  | (perr, w1, evs) =>
    (w1, [Event.wait err] ++ evs
      ++ (match perr with
          | some _ => [Event.log "failed executing post command, err=%v"]
          | none => [])
      ++ [Event.onExecEnd exitCode "failed executing command, err=%v" [err]])

/-- Mirror of `func (c *Command) Run(...)`, up to its `return`. -/
def Command.Run {σ : Type} (InternalErrorExitCode : Int) (o : Outcomes)
    (c : Command σ) (stdinInput : List Byte) (w : σ) : RunResult σ :=
  match o.stdoutPipe with
  | some err =>
    { err := some err, cmd := c, world := w, spawned := false,
      events := [Event.stdoutPipe (some err),
        Event.onExecEnd InternalErrorExitCode "internal error, failed returning stdout pipe" []] }
  | none =>
  match o.stderrPipe with
  | some err =>
    { err := some err, cmd := c, world := w, spawned := false,
      events := [Event.stdoutPipe none, Event.stderrPipe (some err),
        Event.onExecEnd InternalErrorExitCode "internal error, failed returning stderr pipe" []] }
  | none =>
  match c.OnPreExec w with
  | (some err, w1, evs) =>
    { err := some (GoError.preCommandFailed err), cmd := c, world := w1, spawned := false,
      events := [Event.stdoutPipe none, Event.stderrPipe none] ++ evs
        ++ [Event.onExecEnd InternalErrorExitCode
              "internal error, failed executing pre command" []] }
  | (none, w1, evs) =>
  let exitCode : Int := InternalErrorExitCode
  match o.start with
  | some err =>
    let exitCode : Int := if err.isErrNotFound then 127 else exitCode
    { err := some err, cmd := c, world := w1, spawned := false,
      events := [Event.stdoutPipe none, Event.stderrPipe none] ++ evs
        ++ [Event.start (some err), Event.onExecEnd exitCode "failed starting command" []] }
  | none =>
  let c1 : Command σ := { c with cmd := { c.cmd with Process := some o.pid } }
  match o.stdinWrite with
  | some err =>
    { err := some err, cmd := c1, world := w1, spawned := false,
      events := [Event.stdoutPipe none, Event.stderrPipe none] ++ evs
        ++ [Event.start none, Event.stdinWrite stdinInput (some err),
            Event.onExecEnd InternalErrorExitCode "internal error, failed writing input" []] }
  | none =>
    { err := none, cmd := c1, world := w1, spawned := true,
      events := [Event.stdoutPipe none, Event.stderrPipe none] ++ evs
        ++ [Event.start none, Event.stdinWrite stdinInput none,
            Event.copyBuffer "stdout" 1024, Event.copyBuffer "stderr" 1024] }

/-- The main line of a pipe-mode execution: `Run`, then the wait goroutine when
it was launched, run to its end.  The two relay goroutines that `Run` launches
are left out here: this is what `Run` and its wait goroutine do when no relay
panics.  `Command.RunScheduled` adds the relays and the sink. -/
def Command.RunExec {σ : Type} (InternalErrorExitCode : Int) (o : Outcomes)
    (c : Command σ) (stdinInput : List Byte) (w : σ) : RunResult σ :=
  let r := c.Run InternalErrorExitCode o stdinInput w
  if r.spawned then
    match r.cmd.RunTask InternalErrorExitCode o r.world with
    | (w1, evs) => { r with world := w1, events := r.events ++ evs }
  else r

/-- Body of the goroutine launched by `RunOnTTY`: the statements of the
function literal, then its deferred function. -/
def Command.RunOnTTYTask {σ : Type} (o : Outcomes) (c : Command σ) (w : σ) : σ × List Event :=
  let exitCode : Int := 0
  let copyErr := o.ioCopy
  let err := o.wait
  let exitCode : Int :=
    match err with
    | none => exitCode
    | some e =>
      match e.asExitError with
      | some code => if code = -1 then 1 else code
      | none => exitCode
  -- the deferred function runs when the function literal returns
  match c.OnPostExec w with
  | (perr, w1, evs) =>
    (w1, [Event.ioCopy copyErr]
      ++ (match copyErr with
          | some _ => [Event.log "failed copying stdout from tty, err=%v"]
          | none => [])
      ++ [Event.wait err, Event.onExecEnd exitCode "failed executing command, err=%v" [err]]
      ++ [Event.log "exit-code=%v - closing tty ...", Event.ptyClose o.ptyClose]
      ++ (match o.ptyClose with
          | some _ => [Event.log "failed closing tty, err=%v"]
          | none => [])
      ++ evs
      ++ (match perr with
          | some _ => [Event.log "failed executing post execution command, err=%v"]
          | none => []))

/-- Mirror of `func (c *Command) RunOnTTY(...)`, up to its `return` and the
deferred `signal.Stop(ch); close(ch)` that runs at that return. -/
def Command.RunOnTTY {σ : Type} (o : Outcomes) (c : Command σ) (w : σ) : RunResult σ :=
  match c.OnPreExec w with
  | (some err, w1, evs) =>
    { err := some (GoError.preExecutionCommandFailed err), cmd := c, world := w1,
      spawned := false, events := evs }
  | (none, w1, evs) =>
  match o.ptyStart with
  | some err =>
    { err := some (GoError.startingPtyFailed err), cmd := c, world := w1,
      spawned := false, events := evs ++ [Event.ptyStart (some err)] }
  | none =>
    { err := none,
      cmd := { c with cmd := { c.cmd with Process := some o.pid }, ptty := some o.ptmx },
      world := w1, spawned := true,
      events := evs ++ [Event.ptyStart none, Event.signalNotify, Event.initialResize,
        Event.signalStop] }

/-- A whole interactive execution: `RunOnTTY`, then its goroutine when it was
launched. -/
def Command.RunOnTTYExec {σ : Type} (o : Outcomes) (c : Command σ) (w : σ) : RunResult σ :=
  let r := c.RunOnTTY o w
  if r.spawned then
    match r.cmd.RunOnTTYTask o r.world with
    | (w1, evs) => { r with world := w1, events := r.events ++ evs }
  else r

/-- Mirror of `func (c *Command) WriteTTY(data []byte) (int, error)`.
`ptyWrite` is `(*os.File).Write`.  Returns `(n, err)`, the receiver after the
call and the events. -/
def Command.WriteTTY {σ : Type} (ptyWrite : Nat → List Byte → Nat × Option GoError)
    (c : Command σ) (data : List Byte) : (Nat × Option GoError) × Command σ × List Event :=
  match c.ptty with
  | some f => (ptyWrite f data, c, [Event.ptyWrite data])
  | none => ((0, none), c, [])

/-- Mirror of `func NewCommand(rawEnvVarList, args...)`.  `newEnvVarStore`,
`expandEnvVarToCmd` and `ParseToKeyVal` are declared in other files of the
package and `PATH` is `os.Getenv("PATH")`: they are parameters. -/
def NewCommand {σ ρ : Type}
    (newEnvVarStore : ρ → Except GoError (EnvVarStore σ))
    (expandEnvVarToCmd : EnvVarStore σ → List String → Except GoError (List String))
    (ParseToKeyVal : EnvVarStore σ → List String) (PATH : String)
    (rawEnvVarList : ρ) (args : List String) : Except GoError (Command σ) :=
  match args with
  | [] => Except.error (GoError.ext "connection must be at least one argument")
  | mainCmd :: execArgs =>
    match newEnvVarStore rawEnvVarList with
    | Except.error err => Except.error err
    | Except.ok envStore =>
      match (if execArgs.length > 0 then expandEnvVarToCmd envStore execArgs
             else Except.ok execArgs) with
      | Except.error err => Except.error err
      | Except.ok execArgs =>
        Except.ok
          { cmd := { Args := mainCmd :: execArgs,
                     Env := ParseToKeyVal envStore ++ ["PATH=" ++ PATH],
                     Process := none },
            envStore := envStore,
            ptty := none }

/-! ## The stream relay `copyBuffer` -/

/-- Result of one `r.Read(buf)`: the bytes placed in `buf[:n]` and the error. -/
abbrev ReadResult := List Byte × Option GoError

/-- A read that signals end-of-input: `n == 0` and `err == io.EOF`. -/
def ReadResult.isEnd (x : ReadResult) : Bool :=
  x.1.length == 0 && x.2 == some GoError.EOF

/-- How the loop of `copyBuffer` ended. -/
inductive CopyEnd where
  /-- `break` on `io.EOF` -/
  | eof
  /-- `panic(err)` on a failed write -/
  | panicked (err : GoError)
  deriving DecidableEq, Repr

/-- State of a relay when its loop stopped (or ran out of fuel). -/
structure CopyResult (ρ ω : Type) where
  /-- `none`: the loop is still running after the given number of iterations -/
  ended : Option CopyEnd
  reader : ρ
  writer : ω
  /-- results of the reads made, in order -/
  reads : List ReadResult
  /-- arguments of the writes the sink accepted, in order -/
  writes : List (List Byte)

/-- The `for { ... }` loop of the goroutine of `copyBuffer`, run for at most
`fuel` iterations.  `Read r n` is `r.Read(buf[:])` with `len(buf) = n` on the
buffered reader in state `r`; `Write w p` is `w.Write(p)`. -/
def copyLoop {ρ ω : Type} (Read : ρ → Nat → ReadResult × ρ)
    (Write : ω → List Byte → (Nat × Option GoError) × ω) (bufSize : Nat) :
    Nat → ρ → ω → CopyResult ρ ω
  | 0, r, w => { ended := none, reader := r, writer := w, reads := [], writes := [] }
  | fuel + 1, r, w =>
    match Read r bufSize with
    | ((data, err), r1) =>
      if data.length > 0 then
        match Write w data with
        | ((_, some werr), w1) =>
          { ended := some (CopyEnd.panicked werr), reader := r1, writer := w1,
            reads := [(data, err)], writes := [] }
        | ((_, none), w1) =>
          let res := copyLoop Read Write bufSize fuel r1 w1
          { res with reads := (data, err) :: res.reads, writes := data :: res.writes }
      else if err = some GoError.EOF then
        { ended := some CopyEnd.eof, reader := r1, writer := w, reads := [(data, err)],
          writes := [] }
      else
        let res := copyLoop Read Write bufSize fuel r1 w
        { res with reads := (data, err) :: res.reads }

/-- Mirror of `func copyBuffer(reader, w, bufSize)`: the relay it launches,
observed after at most `fuel` iterations. -/
def copyBuffer {ρ ω : Type} (Read : ρ → Nat → ReadResult × ρ)
    (Write : ω → List Byte → (Nat × Option GoError) × ω)
    (reader : ρ) (w : ω) (bufSize : Nat) (fuel : Nat) : CopyResult ρ ω :=
  copyLoop Read Write bufSize fuel reader w

/-- The results of the first `n` reads of a source, when nothing stops it. -/
def readSeq {ρ : Type} (Read : ρ → Nat → ReadResult × ρ) (bufSize : Nat) :
    Nat → ρ → List ReadResult
  | 0, _ => []
  | n + 1, r =>
    match Read r bufSize with
    | (x, r1) => x :: readSeq Read bufSize n r1

/-- Number of calls of the completion callback in a list of events. -/
def countOnExecEnd : List Event → Nat
  | [] => 0
  | Event.onExecEnd _ _ _ :: rest => countOnExecEnd rest + 1
  | _ :: rest => countOnExecEnd rest

/-- Whether an event is a call of a post-exec hook. -/
def Event.isPostExec : Event → Bool
  | Event.postExec _ _ => true
  | _ => false

/-- Whether an event is a call of a pre-exec hook. -/
def Event.isPreExec : Event → Bool
  | Event.preExec _ _ => true
  | _ => false

/-- Whether an event is a call of the completion callback. -/
def Event.isOnExecEnd : Event → Bool
  | Event.onExecEnd _ _ _ => true
  | _ => false

/-- The call events of the pre-exec hooks of a list of entries when every
hook succeeds: one event per entry that has a hook, in store order. -/
def preExecCalls {σ : Type} (store : List (EnvVar σ)) : List Event :=
  (store.filter (fun env => env.OnPreExec.isSome)).map (fun env => Event.preExec env.Key none)

/-- The call events of the post-exec hooks of a list of entries when every
hook succeeds: one event per entry that has a hook, in store order. -/
def postExecCalls {σ : Type} (store : List (EnvVar σ)) : List Event :=
  (store.filter (fun env => env.OnPostExec.isSome)).map (fun env => Event.postExec env.Key none)

/-! ## A started pipe-mode execution with its three goroutines -/

/-- The goroutines that run once `Run` has started the process: the two relays
launched by `copyBuffer(pipeStdout, ...)` and `copyBuffer(pipeStderr, ...)`,
and the wait goroutine. -/
inductive Goroutine where
  | stdoutRelay
  | stderrRelay
  | waitTask
  deriving DecidableEq, Repr

/-- State of a started pipe-mode execution. -/
structure Running (ρ ω : Type) where
  /-- reader of the stdout relay while its loop runs, `none` once it stopped -/
  stdoutRelay : Option ρ
  /-- reader of the stderr relay while its loop runs, `none` once it stopped -/
  stderrRelay : Option ρ
  /-- the sink `streamWriter`, shared by the two relays -/
  sink : ω
  /-- actions of the wait goroutine that have not happened yet, in order -/
  pending : List Event
  /-- what has happened so far -/
  events : List Event
  /-- a relay called `panic`: the process is gone, nothing runs any more -/
  crashed : Bool

/-- One iteration of the loop of a relay launched by `copyBuffer(pipe, w, 1024)`:
the reader if the loop goes on, the sink, the events, and whether it panicked. -/
def relayStep {ρ ω : Type} (Read : ρ → Nat → ReadResult × ρ)
    (Write : ω → List Byte → (Nat × Option GoError) × ω) (pipe : String) (r : ρ) (sink : ω) :
    Option ρ × ω × List Event × Bool :=
  let res := copyBuffer Read Write r sink 1024 1
  match res.ended with
  | some (CopyEnd.panicked err) => (none, res.writer, [Event.panicked err], true)
  | some CopyEnd.eof => (none, res.writer, [], false)
  | none => (some res.reader, res.writer, res.writes.map (Event.sinkWrite pipe), false)

/-- The scheduler lets goroutine `g` make its next step.  A relay runs one
iteration of its loop, the wait goroutine performs its next action.  Nothing
happens after a panic, and a goroutine that has finished has no step left. -/
def Running.step {ρ ω : Type} (Read : ρ → Nat → ReadResult × ρ)
    (Write : ω → List Byte → (Nat × Option GoError) × ω) (s : Running ρ ω) (g : Goroutine) :
    Running ρ ω :=
  if s.crashed then s
  else
    match g with
    | Goroutine.waitTask =>
      match s.pending with
      | [] => s
      | e :: rest => { s with pending := rest, events := s.events ++ [e] }
    | Goroutine.stdoutRelay =>
      match s.stdoutRelay with
      | none => s
      | some r =>
        match relayStep Read Write "stdout" r s.sink with
        | (r1, sink1, evs, crashed) =>
          { s with stdoutRelay := r1, sink := sink1, events := s.events ++ evs,
                   crashed := crashed }
    | Goroutine.stderrRelay =>
      match s.stderrRelay with
      | none => s
      | some r =>
        match relayStep Read Write "stderr" r s.sink with
        | (r1, sink1, evs, crashed) =>
          { s with stderrRelay := r1, sink := sink1, events := s.events ++ evs,
                   crashed := crashed }

/-- A pipe-mode execution with its goroutines: `Run`, then, when the process
was started, the relays of `pipeStdout` and `pipeStderr` into `streamWriter`
and the wait goroutine, interleaved as `schedule` says. -/
def Command.RunScheduled {σ ρ ω : Type} (InternalErrorExitCode : Int) (o : Outcomes)
    (c : Command σ) (stdinInput : List Byte) (w : σ)
    (Read : ρ → Nat → ReadResult × ρ) (Write : ω → List Byte → (Nat × Option GoError) × ω)
    (pipeStdout pipeStderr : ρ) (streamWriter : ω) (schedule : List Goroutine) :
    Running ρ ω :=
  let r := c.Run InternalErrorExitCode o stdinInput w
  if r.spawned then
    schedule.foldl (Running.step Read Write)
      { stdoutRelay := some pipeStdout, stderrRelay := some pipeStderr, sink := streamWriter,
        pending := (r.cmd.RunTask InternalErrorExitCode o r.world).2,
        events := r.events, crashed := false }
  else
    { stdoutRelay := none, stderrRelay := none, sink := streamWriter, pending := [],
      events := r.events, crashed := false }


/-! ## Concrete inputs -/

/-- A hook that succeeds; it counts its call in the world. -/
def hookOk : Hook Nat := fun w => (none, w + 1)

/-- A hook that fails; it counts its call in the world. -/
def hookFail : Hook Nat := fun w => (some (GoError.ext "vault unreachable"), w + 1)

/-- The `exec.Cmd` of `NewCommand(env, "sh", "-c", "exit 3")`. -/
def shCmd : Cmd := { Args := ["sh", "-c", "exit 3"], Env := ["PATH=/usr/bin"], Process := none }

/-- A Command whose three entries have hooks; the post-exec hook of the
second entry fails, every other hook succeeds. -/
def secretsCommand : Command Nat :=
  { cmd := shCmd,
    envStore := EnvVarStore.mk
      [ { Key := "DB_PASSWORD", OnPreExec := some hookOk, OnPostExec := some hookOk },
        { Key := "KUBECONFIG", OnPreExec := some hookOk, OnPostExec := some hookFail },
        { Key := "TOKEN", OnPreExec := none, OnPostExec := some hookOk } ],
    ptty := none }

/-- A Command whose second entry has a failing pre-exec hook. -/
def brokenPreCommand : Command Nat :=
  { cmd := shCmd,
    envStore := EnvVarStore.mk
      [ { Key := "DB_PASSWORD", OnPreExec := some hookOk, OnPostExec := some hookOk },
        { Key := "KUBECONFIG", OnPreExec := some hookFail, OnPostExec := some hookOk },
        { Key := "TOKEN", OnPreExec := some hookOk, OnPostExec := none } ],
    ptty := none }

/-- A Command with one entry, whose hooks succeed. -/
def oneHookCommand : Command Nat :=
  { cmd := shCmd,
    envStore :=
      EnvVarStore.mk
        [ { Key := "KUBECONFIG", OnPreExec := some hookOk, OnPostExec := some hookOk } ],
    ptty := none }

/-- Every call succeeds and the process exits with status 0. -/
def allOk : Outcomes :=
  { stdoutPipe := none, stderrPipe := none, start := none, pid := 4242, stdinWrite := none,
    wait := none, ptyStart := none, ptmx := 7, ioCopy := none, ptyClose := none }

/-- The process exits with status 3. -/
def exitsWith3 : Outcomes := { allOk with wait := some (GoError.exitError 3) }

/-- The executable is not found: `Start` and `pty.Start` fail. -/
def startNotFound : Outcomes :=
  { allOk with start := some (GoError.notFound "executable file not found in $PATH"),
               ptyStart := some (GoError.notFound "executable file not found in $PATH") }

/-- The process starts, then `Wait` fails with an error that is not an exit
error (the wait system call itself fails). -/
def waitNoChild : Outcomes := { allOk with wait := some (GoError.ext "wait: no child processes") }

/-- A source that replays a list of read results, then answers `(0, io.EOF)`. -/
def scriptRead : List ReadResult → Nat → ReadResult × List ReadResult
  | [], _ => (([], some GoError.EOF), [])
  | x :: rest, _ => (x, rest)

/-- A sink that accepts every write and keeps the bytes it received. -/
def sinkWrite : List Byte → List Byte → (Nat × Option GoError) × List Byte :=
  fun w p => ((p.length, none), w ++ p)

/-- Two bytes, an empty read without error, then one byte delivered with
`io.EOF`. -/
def helloScript : List ReadResult := [([104, 105], none), ([], none), ([10], some GoError.EOF)]

/-- A sink whose every write fails. -/
def brokenSink : List Byte → List Byte → (Nat × Option GoError) × List Byte :=
  fun w _ => ((0, some (GoError.ext "write: broken pipe")), w)

/-- The wait goroutine sees `Wait` return, then the stdout relay runs, then the
wait goroutine is scheduled as often as it would need to finish. -/
def waitThenRelay : List Goroutine :=
  [Goroutine.waitTask, Goroutine.stdoutRelay, Goroutine.waitTask, Goroutine.waitTask,
   Goroutine.waitTask, Goroutine.waitTask, Goroutine.waitTask, Goroutine.waitTask]

/-- The relays and the wait goroutine take turns until all have finished. -/
def roundRobin : List Goroutine :=
  [Goroutine.stdoutRelay, Goroutine.waitTask, Goroutine.stderrRelay, Goroutine.waitTask,
   Goroutine.stdoutRelay, Goroutine.waitTask, Goroutine.stdoutRelay, Goroutine.waitTask,
   Goroutine.stdoutRelay, Goroutine.waitTask, Goroutine.stderrRelay, Goroutine.waitTask]

/-! ## Lemmas on the hook loops -/

theorem preExecCalls_cons_none {σ : Type} (env : EnvVar σ) (rest : List (EnvVar σ))
    (h : env.OnPreExec = none) : preExecCalls (env :: rest) = preExecCalls rest := by
  simp [preExecCalls, List.filter_cons, h]

theorem preExecCalls_cons_some {σ : Type} (env : EnvVar σ) (rest : List (EnvVar σ))
    (hook : Hook σ) (h : env.OnPreExec = some hook) :
    preExecCalls (env :: rest) = Event.preExec env.Key none :: preExecCalls rest := by
  simp [preExecCalls, List.filter_cons, h]

theorem preExecCalls_no_failure {σ : Type} (store : List (EnvVar σ)) (key : String)
    (err : Option GoError) (h : Event.preExec key err ∈ preExecCalls store) : err = none := by
  simp only [preExecCalls, List.mem_map] at h
  obtain ⟨env, _, henv⟩ := h
  injection henv with _ h2
  exact h2.symm

/-- Shape of every run of the pre-exec loop: either all hooks succeeded, or
the store splits at the first entry whose hook failed. -/
theorem onPreExecLoop_shape {σ : Type} (store : List (EnvVar σ)) (w : σ) :
    (∃ w1, onPreExecLoop store w = (none, w1, preExecCalls store)) ∨
    (∃ pre env post hook hookErr w0 w1,
      store = pre ++ env :: post ∧ env.OnPreExec = some hook ∧
      onPreExecLoop pre w = (none, w0, preExecCalls pre) ∧
      hook w0 = (some hookErr, w1) ∧
      onPreExecLoop store w =
        (some (GoError.envVarFailed env.Key hookErr), w1,
          preExecCalls pre ++ [Event.preExec env.Key (some hookErr)])) := by
  induction store generalizing w with
  | nil => exact Or.inl ⟨w, rfl⟩
  | cons env rest ih =>
    cases hpre : env.OnPreExec with
    | none =>
      rcases ih w with ⟨w1, h1⟩ | ⟨pre, e, post, hook, hookErr, w0, w1, hs, hh, hp, hf, hr⟩
      · left
        refine ⟨w1, ?_⟩
        simp [onPreExecLoop, hpre, h1, preExecCalls_cons_none env rest hpre]
      · right
        refine ⟨env :: pre, e, post, hook, hookErr, w0, w1, ?_, hh, ?_, hf, ?_⟩
        · simp [hs]
        · simp [onPreExecLoop, hpre, hp, preExecCalls_cons_none env pre hpre]
        · simp [onPreExecLoop, hpre, hr, preExecCalls_cons_none env pre hpre]
    | some hook =>
      cases hrun : hook w with
      | mk res w1 =>
        cases res with
        | some err =>
          right
          refine ⟨[], env, rest, hook, err, w, w1, rfl, hpre, rfl, hrun, ?_⟩
          simp [onPreExecLoop, hpre, hrun, preExecCalls]
        | none =>
          rcases ih w1 with ⟨w2, h2⟩ | ⟨pre, e, post, hk, hookErr, w0, w2, hs, hh, hp, hf, hr⟩
          · left
            refine ⟨w2, ?_⟩
            simp [onPreExecLoop, hpre, hrun, h2, preExecCalls_cons_some env rest hook hpre]
          · right
            refine ⟨env :: pre, e, post, hk, hookErr, w0, w2, ?_, hh, ?_, hf, ?_⟩
            · simp [hs]
            · simp [onPreExecLoop, hpre, hrun, hp, preExecCalls_cons_some env pre hook hpre]
            · simp [onPreExecLoop, hpre, hrun, hr, preExecCalls_cons_some env pre hook hpre]

theorem postExecCalls_cons_none {σ : Type} (env : EnvVar σ) (rest : List (EnvVar σ))
    (h : env.OnPostExec = none) : postExecCalls (env :: rest) = postExecCalls rest := by
  simp [postExecCalls, List.filter_cons, h]

theorem postExecCalls_cons_some {σ : Type} (env : EnvVar σ) (rest : List (EnvVar σ))
    (hook : Hook σ) (h : env.OnPostExec = some hook) :
    postExecCalls (env :: rest) = Event.postExec env.Key none :: postExecCalls rest := by
  simp [postExecCalls, List.filter_cons, h]

theorem countOnExecEnd_append (xs ys : List Event) :
    countOnExecEnd (xs ++ ys) = countOnExecEnd xs + countOnExecEnd ys := by
  induction xs with
  | nil => simp [countOnExecEnd]
  | cons x xs ih => cases x <;> simp [countOnExecEnd, ih]; omega

/-- The pre-exec loop only emits calls of pre-exec hooks. -/
theorem onPreExecLoop_events {σ : Type} (store : List (EnvVar σ)) (w : σ) :
    ∀ e ∈ (onPreExecLoop store w).2.2, e.isPreExec = true := by
  induction store generalizing w with
  | nil => simp [onPreExecLoop]
  | cons env rest ih =>
    cases hpre : env.OnPreExec with
    | none => simpa [onPreExecLoop, hpre] using ih w
    | some hook =>
      cases hrun : hook w with
      | mk res w1 =>
        cases res with
        | some err => simp [onPreExecLoop, hpre, hrun, Event.isPreExec]
        | none =>
          have h := ih w1
          simp only [onPreExecLoop, hpre, hrun, List.mem_cons]
          rintro e (rfl | he)
          · rfl
          · exact h e he

/-- The post-exec loop only emits calls of post-exec hooks. -/
theorem onPostExecLoop_events {σ : Type} (store : List (EnvVar σ)) (w : σ) :
    ∀ e ∈ (onPostExecLoop store w).2.2, e.isPostExec = true := by
  induction store generalizing w with
  | nil => simp [onPostExecLoop]
  | cons env rest ih =>
    cases hpost : env.OnPostExec with
    | none => simpa [onPostExecLoop, hpost] using ih w
    | some hook =>
      cases hrun : hook w with
      | mk res w1 =>
        cases res with
        | some err => simp [onPostExecLoop, hpost, hrun, Event.isPostExec]
        | none =>
          have h := ih w1
          simp only [onPostExecLoop, hpost, hrun, List.mem_cons]
          rintro e (rfl | he)
          · rfl
          · exact h e he

/-- A list of events without callback calls counts zero. -/
theorem countOnExecEnd_eq_zero (evs : List Event)
    (h : ∀ e ∈ evs, e.isOnExecEnd = false) : countOnExecEnd evs = 0 := by
  induction evs with
  | nil => rfl
  | cons x xs ih =>
    have hx := h x (List.mem_cons_self _ _)
    have hxs := ih (fun e he => h e (List.mem_cons_of_mem _ he))
    cases x <;> simp_all [countOnExecEnd, Event.isOnExecEnd]

theorem countOnExecEnd_onPreExecLoop {σ : Type} (store : List (EnvVar σ)) (w : σ) :
    countOnExecEnd (onPreExecLoop store w).2.2 = 0 := by
  apply countOnExecEnd_eq_zero
  intro e he
  have h := onPreExecLoop_events store w e he
  cases e <;> simp_all [Event.isPreExec, Event.isOnExecEnd]

theorem countOnExecEnd_onPostExecLoop {σ : Type} (store : List (EnvVar σ)) (w : σ) :
    countOnExecEnd (onPostExecLoop store w).2.2 = 0 := by
  apply countOnExecEnd_eq_zero
  intro e he
  have h := onPostExecLoop_events store w e he
  cases e <;> simp_all [Event.isPostExec, Event.isOnExecEnd]

/-- The goroutine of `Run` calls the callback exactly once. -/
theorem countOnExecEnd_RunTask {σ : Type} (iec : Int) (o : Outcomes) (c : Command σ) (w : σ) :
    countOnExecEnd (c.RunTask iec o w).2 = 1 := by
  have h := countOnExecEnd_onPostExecLoop c.envStore.store w
  rcases hp : onPostExecLoop c.envStore.store w with ⟨perr, w1, evs⟩
  rw [hp] at h
  simp only [Command.RunTask, Command.OnPostExec, hp, countOnExecEnd_append]
  cases perr <;> simp_all [countOnExecEnd]

/-- The goroutine of `RunOnTTY` calls the callback exactly once. -/
theorem countOnExecEnd_RunOnTTYTask {σ : Type} (o : Outcomes) (c : Command σ) (w : σ) :
    countOnExecEnd (c.RunOnTTYTask o w).2 = 1 := by
  have h := countOnExecEnd_onPostExecLoop c.envStore.store w
  rcases hp : onPostExecLoop c.envStore.store w with ⟨perr, w1, evs⟩
  rw [hp] at h
  simp only [Command.RunOnTTYTask, Command.OnPostExec, hp, countOnExecEnd_append]
  cases perr <;> cases o.ioCopy <;> cases o.ptyClose <;> simp_all [countOnExecEnd]

/-- In pipe mode the synchronous part calls the callback once exactly when it
does not launch the wait goroutine. -/
theorem countOnExecEnd_Run {σ : Type} (iec : Int) (o : Outcomes) (c : Command σ)
    (stdinInput : List Byte) (w : σ) :
    countOnExecEnd (c.Run iec o stdinInput w).events
      = if (c.Run iec o stdinInput w).spawned then 0 else 1 := by
  have h := countOnExecEnd_onPreExecLoop c.envStore.store w
  rcases hp : onPreExecLoop c.envStore.store w with ⟨perr, w1, evs⟩
  rw [hp] at h
  simp only [Command.Run, Command.OnPreExec, hp]
  cases o.stdoutPipe <;> cases o.stderrPipe <;> cases perr <;> cases o.start <;>
    cases o.stdinWrite <;> simp_all [countOnExecEnd, countOnExecEnd_append]

/-- In interactive mode the synchronous part never calls the callback, and it
launches the goroutine exactly when it returns nil. -/
theorem countOnExecEnd_RunOnTTY {σ : Type} (o : Outcomes) (c : Command σ) (w : σ) :
    countOnExecEnd (c.RunOnTTY o w).events = 0 ∧
    ((c.RunOnTTY o w).spawned = true ↔ (c.RunOnTTY o w).err = none) := by
  have h := countOnExecEnd_onPreExecLoop c.envStore.store w
  rcases hp : onPreExecLoop c.envStore.store w with ⟨perr, w1, evs⟩
  rw [hp] at h
  simp only [Command.RunOnTTY, Command.OnPreExec, hp]
  cases perr <;> cases o.ptyStart <;> simp_all [countOnExecEnd, countOnExecEnd_append]

theorem RunExec_of_not_spawned {σ : Type} (iec : Int) (o : Outcomes) (c : Command σ)
    (stdinInput : List Byte) (w : σ) (h : (c.Run iec o stdinInput w).spawned = false) :
    c.RunExec iec o stdinInput w = c.Run iec o stdinInput w := by
  simp [Command.RunExec, h]

theorem RunExec_of_spawned {σ : Type} (iec : Int) (o : Outcomes) (c : Command σ)
    (stdinInput : List Byte) (w : σ) (h : (c.Run iec o stdinInput w).spawned = true) :
    (c.RunExec iec o stdinInput w).events
        = (c.Run iec o stdinInput w).events
          ++ ((c.Run iec o stdinInput w).cmd.RunTask iec o (c.Run iec o stdinInput w).world).2 ∧
    (c.RunExec iec o stdinInput w).err = (c.Run iec o stdinInput w).err ∧
    (c.RunExec iec o stdinInput w).cmd = (c.Run iec o stdinInput w).cmd := by
  simp [Command.RunExec, h]

theorem RunOnTTYExec_of_not_spawned {σ : Type} (o : Outcomes) (c : Command σ) (w : σ)
    (h : (c.RunOnTTY o w).spawned = false) : c.RunOnTTYExec o w = c.RunOnTTY o w := by
  simp [Command.RunOnTTYExec, h]

theorem RunOnTTYExec_of_spawned {σ : Type} (o : Outcomes) (c : Command σ) (w : σ)
    (h : (c.RunOnTTY o w).spawned = true) :
    (c.RunOnTTYExec o w).events
        = (c.RunOnTTY o w).events
          ++ ((c.RunOnTTY o w).cmd.RunOnTTYTask o (c.RunOnTTY o w).world).2 ∧
    (c.RunOnTTYExec o w).err = (c.RunOnTTY o w).err ∧
    (c.RunOnTTYExec o w).cmd = (c.RunOnTTY o w).cmd := by
  simp [Command.RunOnTTYExec, h]

/-- The main line calls the callback exactly once: `Run` followed by its wait
goroutine always; `RunOnTTY` followed by its goroutine once when `RunOnTTY`
returns nil and never when it returns an error. -/
theorem countOnExecEnd_main_line {σ : Type} (iec : Int) (o : Outcomes) (c : Command σ)
    (stdinInput : List Byte) (w : σ) :
    countOnExecEnd (c.RunExec iec o stdinInput w).events = 1 ∧
    ((c.RunOnTTYExec o w).err = none → countOnExecEnd (c.RunOnTTYExec o w).events = 1) ∧
    ((c.RunOnTTYExec o w).err ≠ none → countOnExecEnd (c.RunOnTTYExec o w).events = 0) := by
  refine ⟨?_, ?_, ?_⟩
  · have h := countOnExecEnd_Run iec o c stdinInput w
    cases hs : (c.Run iec o stdinInput w).spawned with
    | false =>
      rw [RunExec_of_not_spawned iec o c stdinInput w hs]
      simpa [hs] using h
    | true =>
      rw [(RunExec_of_spawned iec o c stdinInput w hs).1, countOnExecEnd_append,
        countOnExecEnd_RunTask]
      simp [hs] at h
      omega
  · have h := countOnExecEnd_RunOnTTY o c w
    cases hs : (c.RunOnTTY o w).spawned with
    | false =>
      rw [RunOnTTYExec_of_not_spawned o c w hs]
      intro he
      have h2 := h.2.2 he
      rw [hs] at h2
      exact absurd h2 (by decide)
    | true =>
      intro _
      rw [(RunOnTTYExec_of_spawned o c w hs).1, countOnExecEnd_append,
        countOnExecEnd_RunOnTTYTask, h.1]
  · have h := countOnExecEnd_RunOnTTY o c w
    cases hs : (c.RunOnTTY o w).spawned with
    | false =>
      rw [RunOnTTYExec_of_not_spawned o c w hs]
      intro _
      exact h.1
    | true =>
      rw [(RunOnTTYExec_of_spawned o c w hs).2.1]
      intro he
      exact absurd (h.2.1 hs) he

theorem filter_isOnExecEnd_of_count_zero (evs : List Event) (h : countOnExecEnd evs = 0) :
    evs.filter Event.isOnExecEnd = [] := by
  induction evs with
  | nil => rfl
  | cons x xs ih => cases x <;> simp_all [countOnExecEnd, Event.isOnExecEnd]

theorem filter_isOnExecEnd_onPreExecLoop {σ : Type} (store : List (EnvVar σ)) (w : σ) :
    (onPreExecLoop store w).2.2.filter Event.isOnExecEnd = [] :=
  filter_isOnExecEnd_of_count_zero _ (countOnExecEnd_onPreExecLoop store w)

theorem filter_isOnExecEnd_onPostExecLoop {σ : Type} (store : List (EnvVar σ)) (w : σ) :
    (onPostExecLoop store w).2.2.filter Event.isOnExecEnd = [] :=
  filter_isOnExecEnd_of_count_zero _ (countOnExecEnd_onPostExecLoop store w)

/-- The calls of the callback made by the goroutine of `Run`. -/
theorem RunTask_callbacks {σ : Type} (iec : Int) (o : Outcomes) (c : Command σ) (w : σ) :
    (c.RunTask iec o w).2.filter Event.isOnExecEnd
      = [Event.onExecEnd
          (match o.wait with
           | none => 0
           | some e =>
             match e.asExitError with
             | some code => if code = -1 then iec else code
             | none => 0)
          "failed executing command, err=%v" [o.wait]] := by
  have h := filter_isOnExecEnd_onPostExecLoop c.envStore.store w
  rcases hp : onPostExecLoop c.envStore.store w with ⟨perr, w1, evs⟩
  rw [hp] at h
  simp only [Command.RunTask, Command.OnPostExec, hp, List.filter_append]
  cases perr <;> simp_all [Event.isOnExecEnd, List.filter_cons]

/-- The calls of the callback made by the goroutine of `RunOnTTY`. -/
theorem RunOnTTYTask_callbacks {σ : Type} (o : Outcomes) (c : Command σ) (w : σ) :
    (c.RunOnTTYTask o w).2.filter Event.isOnExecEnd
      = [Event.onExecEnd
          (match o.wait with
           | none => 0
           | some e =>
             match e.asExitError with
             | some code => if code = -1 then 1 else code
             | none => 0)
          "failed executing command, err=%v" [o.wait]] := by
  have h := filter_isOnExecEnd_onPostExecLoop c.envStore.store w
  rcases hp : onPostExecLoop c.envStore.store w with ⟨perr, w1, evs⟩
  rw [hp] at h
  simp only [Command.RunOnTTYTask, Command.OnPostExec, hp, List.filter_append]
  cases perr <;> cases o.ioCopy <;> cases o.ptyClose <;>
    simp_all [Event.isOnExecEnd, List.filter_cons]

/-- C8: a normal exit status is reported unchanged.  For every `N` in `0..255`,
when the started process exits with status `N` (`Wait` returns nil for `N = 0`
and an exit error carrying `N` otherwise), the only call of the callback in
the whole execution carries exactly `N`, in pipe mode and in interactive mode,
whatever the post-exec hooks of the store do. -/
theorem exit_status_reported_unchanged {σ : Type} (iec N : Int) (o : Outcomes)
    (c : Command σ) (stdinInput : List Byte) (w : σ)
    (h0 : 0 ≤ N) (h255 : N ≤ 255)
    (hwait : o.wait = if N = 0 then none else some (GoError.exitError N)) :
    ((c.Run iec o stdinInput w).spawned = true →
      (c.RunExec iec o stdinInput w).events.filter Event.isOnExecEnd
        = [Event.onExecEnd N "failed executing command, err=%v" [o.wait]]) ∧
    ((c.RunOnTTY o w).spawned = true →
      (c.RunOnTTYExec o w).events.filter Event.isOnExecEnd
        = [Event.onExecEnd N "failed executing command, err=%v" [o.wait]]) := by
  constructor
  · intro hs
    have hc := countOnExecEnd_Run iec o c stdinInput w
    rw [hs] at hc
    rw [(RunExec_of_spawned iec o c stdinInput w hs).1, List.filter_append,
      filter_isOnExecEnd_of_count_zero _ (by simpa using hc), RunTask_callbacks]
    by_cases hN : N = 0
    · simp [hwait, hN]
    · have : N ≠ -1 := by omega
      simp [hwait, hN, GoError.asExitError, this]
  · intro hs
    have hc := (countOnExecEnd_RunOnTTY o c w).1
    rw [(RunOnTTYExec_of_spawned o c w hs).1, List.filter_append,
      filter_isOnExecEnd_of_count_zero _ hc, RunOnTTYTask_callbacks]
    by_cases hN : N = 0
    · simp [hwait, hN]
    · have : N ≠ -1 := by omega
      simp [hwait, hN, GoError.asExitError, this]

/-- What `Run` does when the pipes open and `OnPreExec` fails. -/
theorem Run_of_preExec_error {σ : Type} (iec : Int) (o : Outcomes) (c : Command σ)
    (stdinInput : List Byte) (w w1 : σ) (e : GoError) (evs : List Event)
    (hout : o.stdoutPipe = none) (herr : o.stderrPipe = none)
    (hp : onPreExecLoop c.envStore.store w = (some e, w1, evs)) :
    c.Run iec o stdinInput w =
      { err := some (GoError.preCommandFailed e), cmd := c, world := w1, spawned := false,
        events := [Event.stdoutPipe none, Event.stderrPipe none] ++ evs
          ++ [Event.onExecEnd iec "internal error, failed executing pre command" []] } := by
  simp [Command.Run, Command.OnPreExec, hout, herr, hp]

/-- What `Run` does when the pipes open, `OnPreExec` succeeds and `Start` fails. -/
theorem Run_of_start_error {σ : Type} (iec : Int) (o : Outcomes) (c : Command σ)
    (stdinInput : List Byte) (w w1 : σ) (startErr : GoError) (evs : List Event)
    (hout : o.stdoutPipe = none) (herr : o.stderrPipe = none)
    (hp : onPreExecLoop c.envStore.store w = (none, w1, evs)) (hstart : o.start = some startErr) :
    c.Run iec o stdinInput w =
      { err := some startErr, cmd := c, world := w1, spawned := false,
        events := [Event.stdoutPipe none, Event.stderrPipe none] ++ evs
          ++ [Event.start (some startErr),
              Event.onExecEnd (if startErr.isErrNotFound then 127 else iec)
                "failed starting command" []] } := by
  simp [Command.Run, Command.OnPreExec, hout, herr, hp, hstart]

/-- C5: pre-exec failure in pipe mode.  When the two pipes open and a pre-exec
hook of the store fails, `Run` on a Command that was not started before does
not start the process (no `Start` call, the Command is unchanged and `Pid()`
is -1), calls no post-exec hook, calls the callback exactly once, with
`InternalErrorExitCode`, launches no goroutine and returns an error built
from the error of the hook that failed. -/
theorem Run_preExec_failure {σ : Type} (iec : Int) (o : Outcomes) (c : Command σ)
    (stdinInput : List Byte) (w : σ)
    (hfresh : c.cmd.Process = none)
    (hout : o.stdoutPipe = none) (herr : o.stderrPipe = none)
    (hpre : (c.OnPreExec w).1 ≠ none) :
    ∃ key hookErr,
      Event.preExec key (some hookErr) ∈ (c.RunExec iec o stdinInput w).events ∧
      (c.RunExec iec o stdinInput w).err
        = some (GoError.preCommandFailed (GoError.envVarFailed key hookErr)) ∧
      (c.RunExec iec o stdinInput w).spawned = false ∧
      (c.RunExec iec o stdinInput w).cmd = c ∧
      (c.RunExec iec o stdinInput w).cmd.Pid = -1 ∧
      (∀ err, Event.start err ∉ (c.RunExec iec o stdinInput w).events) ∧
      (∀ ev ∈ (c.RunExec iec o stdinInput w).events, ev.isPostExec = false) ∧
      (c.RunExec iec o stdinInput w).events.filter Event.isOnExecEnd
        = [Event.onExecEnd iec "internal error, failed executing pre command" []] := by
  rcases onPreExecLoop_shape c.envStore.store w with ⟨w1, h1⟩ |
    ⟨pre, env, post, hook, hookErr, w0, w1, _, _, _, _, hr⟩
  · exact absurd (by simp [Command.OnPreExec, h1]) hpre
  · have hkey : Event.preExec env.Key (some hookErr)
        ∈ preExecCalls pre ++ [Event.preExec env.Key (some hookErr)] := by simp
    generalize preExecCalls pre ++ [Event.preExec env.Key (some hookErr)] = evs at hr hkey
    have hrun := Run_of_preExec_error iec o c stdinInput w w1 _ _ hout herr hr
    have hexec : c.RunExec iec o stdinInput w = c.Run iec o stdinInput w :=
      RunExec_of_not_spawned iec o c stdinInput w (by rw [hrun])
    have hev := onPreExecLoop_events c.envStore.store w
    have hfil := filter_isOnExecEnd_onPreExecLoop c.envStore.store w
    rw [hr] at hev hfil
    simp only at hev hfil
    refine ⟨env.Key, hookErr, ?_⟩
    rw [hexec, hrun]
    refine ⟨by simp [hkey], rfl, rfl, rfl, by simp [Command.Pid, hfresh], ?_, ?_, ?_⟩
    · intro err hmem
      simp only [List.mem_append, List.mem_cons, List.mem_singleton, List.not_mem_nil,
        or_false] at hmem
      rcases hmem with ((h | h) | h) | h
      · cases h
      · cases h
      · have := hev _ h
        simp [Event.isPreExec] at this
      · cases h
    · intro ev hmem
      simp only [List.mem_append, List.mem_cons, List.mem_singleton, List.not_mem_nil,
        or_false] at hmem
      rcases hmem with ((h | h) | h) | h
      · subst h; rfl
      · subst h; rfl
      · have := hev _ h
        cases ev <;> simp_all [Event.isPreExec, Event.isPostExec]
      · subst h; rfl
    · simp only [List.filter_append, hfil]
      simp [List.filter_cons, Event.isOnExecEnd]

/-- C6: start-failure classification in pipe mode.  When the pipes open, the
pre-exec hooks succeed and `Start` fails with `startErr`, the callback is
called exactly once, with message "failed starting command" and with exit
code 127 if and only if `startErr` is of the not-found class, and with
`InternalErrorExitCode` otherwise; `Run` returns `startErr`, launches no
goroutine, and no wait and no post-exec hook follows.  `InternalErrorExitCode`
is a code other than 127. -/
theorem Run_start_failure {σ : Type} (iec : Int) (o : Outcomes) (c : Command σ)
    (stdinInput : List Byte) (w : σ) (startErr : GoError)
    (hiec : iec ≠ 127)
    (hout : o.stdoutPipe = none) (herr : o.stderrPipe = none)
    (hpre : (c.OnPreExec w).1 = none) (hstart : o.start = some startErr) :
    ∃ code : Int,
      (c.RunExec iec o stdinInput w).events.filter Event.isOnExecEnd
        = [Event.onExecEnd code "failed starting command" []] ∧
      (code = 127 ↔ startErr.isErrNotFound = true) ∧
      (startErr.isErrNotFound = false → code = iec) ∧
      (c.RunExec iec o stdinInput w).err = some startErr ∧
      (c.RunExec iec o stdinInput w).spawned = false ∧
      (c.RunExec iec o stdinInput w).cmd = c ∧
      (∀ err, Event.wait err ∉ (c.RunExec iec o stdinInput w).events) ∧
      (∀ ev ∈ (c.RunExec iec o stdinInput w).events, ev.isPostExec = false) := by
  rcases hp : onPreExecLoop c.envStore.store w with ⟨perr, w1, evs⟩
  have hperr : perr = none := by simpa [Command.OnPreExec, hp] using hpre
  subst hperr
  have hrun := Run_of_start_error iec o c stdinInput w w1 startErr evs hout herr hp hstart
  have hexec : c.RunExec iec o stdinInput w = c.Run iec o stdinInput w :=
    RunExec_of_not_spawned iec o c stdinInput w (by rw [hrun])
  have hev := onPreExecLoop_events c.envStore.store w
  have hfil := filter_isOnExecEnd_onPreExecLoop c.envStore.store w
  rw [hp] at hev hfil
  simp only at hev hfil
  refine ⟨if startErr.isErrNotFound then 127 else iec, ?_⟩
  rw [hexec, hrun]
  refine ⟨?_, ?_, ?_, rfl, rfl, rfl, ?_, ?_⟩
  · simp only [List.filter_append, hfil]
    simp [List.filter_cons, Event.isOnExecEnd]
  · cases startErr.isErrNotFound <;> simp [hiec]
  · intro h
    simp [h]
  · intro err hmem
    simp only [List.mem_append, List.mem_cons, List.mem_singleton, List.not_mem_nil,
      or_false] at hmem
    rcases hmem with ((h | h) | h) | (h | h)
    · cases h
    · cases h
    · have := hev _ h
      simp [Event.isPreExec] at this
    · cases h
    · cases h
  · intro ev hmem
    simp only [List.mem_append, List.mem_cons, List.mem_singleton, List.not_mem_nil,
      or_false] at hmem
    rcases hmem with ((h | h) | h) | (h | h)
    · subst h; rfl
    · subst h; rfl
    · have := hev _ h
      cases ev <;> simp_all [Event.isPreExec, Event.isPostExec]
    · subst h; rfl
    · subst h; rfl

/-- C7: `OnPreExec` is fail-fast in store order.  Either every pre-exec hook of
the store was called, in store order, each returned nil and the result is nil;
or the store splits as `pre ++ env :: post` where the hooks of `pre` were all
called and returned nil, the hook of `env` was called next and failed, no hook
of `post` was called, and the returned error carries the key of `env` and the
error of its hook.  The result is nil if and only if no called hook failed. -/
theorem OnPreExec_fail_fast {σ : Type} (c : Command σ) (w : σ) :
    ((∃ w1, c.OnPreExec w = (none, w1, preExecCalls c.envStore.store)) ∨
     (∃ pre env post hook hookErr w0 w1,
        c.envStore.store = pre ++ env :: post ∧ env.OnPreExec = some hook ∧
        onPreExecLoop pre w = (none, w0, preExecCalls pre) ∧
        hook w0 = (some hookErr, w1) ∧
        c.OnPreExec w =
          (some (GoError.envVarFailed env.Key hookErr), w1,
            preExecCalls pre ++ [Event.preExec env.Key (some hookErr)]))) ∧
    ((c.OnPreExec w).1 = none ↔
      ∀ key err, Event.preExec key err ∈ (c.OnPreExec w).2.2 → err = none) := by
  refine ⟨onPreExecLoop_shape c.envStore.store w, ?_⟩
  rcases onPreExecLoop_shape c.envStore.store w with ⟨w1, h1⟩ |
    ⟨pre, env, post, hook, hookErr, w0, w1, _, _, _, _, hr⟩
  · simp only [Command.OnPreExec, h1, true_iff]
    intro key err hmem
    exact preExecCalls_no_failure c.envStore.store key err hmem
  · simp only [Command.OnPreExec, hr]
    constructor
    · intro h
      cases h
    · intro h
      have := h env.Key (some hookErr) (by simp)
      cases this

/-- `Run` never touches the pseudo-terminal handle. -/
theorem Run_ptty {σ : Type} (iec : Int) (o : Outcomes) (c : Command σ)
    (stdinInput : List Byte) (w : σ) : (c.RunExec iec o stdinInput w).cmd.ptty = c.ptty := by
  have hsync : (c.Run iec o stdinInput w).cmd.ptty = c.ptty := by
    rcases hp : onPreExecLoop c.envStore.store w with ⟨perr, w1, evs⟩
    simp only [Command.Run, Command.OnPreExec, hp]
    cases o.stdoutPipe <;> cases o.stderrPipe <;> cases perr <;> cases o.start <;>
      cases o.stdinWrite <;> rfl
  cases hs : (c.Run iec o stdinInput w).spawned with
  | false => rw [RunExec_of_not_spawned iec o c stdinInput w hs, hsync]
  | true => rw [(RunExec_of_spawned iec o c stdinInput w hs).2.2, hsync]

/-- `RunOnTTY` leaves the Command as it was when it returns an error. -/
theorem RunOnTTY_error_cmd {σ : Type} (o : Outcomes) (c : Command σ) (w : σ)
    (h : (c.RunOnTTYExec o w).err ≠ none) : (c.RunOnTTYExec o w).cmd = c := by
  cases hs : (c.RunOnTTY o w).spawned with
  | false =>
    rw [RunOnTTYExec_of_not_spawned o c w hs]
    rcases hp : onPreExecLoop c.envStore.store w with ⟨perr, w1, evs⟩
    simp only [Command.RunOnTTY, Command.OnPreExec, hp] at hs ⊢
    cases perr <;> cases hpty : o.ptyStart <;> simp_all
  | true =>
    rw [(RunOnTTYExec_of_spawned o c w hs).2.1] at h
    exact absurd ((countOnExecEnd_RunOnTTY o c w).2.1 hs) h

/-- C9: `WriteTTY` is a silent no-op without a pseudo-terminal.  On a Command
whose `ptty` is nil, `WriteTTY(data)` returns `(0, nil)`, writes nothing and
leaves the Command unchanged, for every `data`; and `ptty` is nil on a freshly
constructed Command, stays nil through a run in pipe mode, and stays nil when
`RunOnTTY` returns an error. -/
theorem WriteTTY_noop_without_pty {σ : Type} (ptyWrite : Nat → List Byte → Nat × Option GoError)
    (c : Command σ) (data : List Byte) (hpty : c.ptty = none) :
    c.WriteTTY ptyWrite data = ((0, none), c, []) ∧
    (∀ (iec : Int) (o : Outcomes) (stdinInput : List Byte) (w : σ),
      (c.RunExec iec o stdinInput w).cmd.WriteTTY ptyWrite data
        = ((0, none), (c.RunExec iec o stdinInput w).cmd, [])) ∧
    (∀ (o : Outcomes) (w : σ), (c.RunOnTTYExec o w).err ≠ none →
      (c.RunOnTTYExec o w).cmd.WriteTTY ptyWrite data
        = ((0, none), (c.RunOnTTYExec o w).cmd, [])) ∧
    (∀ (ρ : Type) (newEnvVarStore : ρ → Except GoError (EnvVarStore σ))
      (expandEnvVarToCmd : EnvVarStore σ → List String → Except GoError (List String))
      (ParseToKeyVal : EnvVarStore σ → List String) (PATH : String)
      (rawEnvVarList : ρ) (args : List String) (c0 : Command σ),
      NewCommand newEnvVarStore expandEnvVarToCmd ParseToKeyVal PATH rawEnvVarList args
        = Except.ok c0 →
      c0.WriteTTY ptyWrite data = ((0, none), c0, [])) := by
  refine ⟨?_, ?_, ?_, ?_⟩
  · simp [Command.WriteTTY, hpty]
  · intro iec o stdinInput w
    have h := Run_ptty iec o c stdinInput w
    rw [hpty] at h
    simp [Command.WriteTTY, h]
  · intro o w herr
    rw [RunOnTTY_error_cmd o c w herr]
    simp [Command.WriteTTY, hpty]
  · intro ρ newEnvVarStore expandEnvVarToCmd ParseToKeyVal PATH rawEnvVarList args c0 hnew
    have h0 : c0.ptty = none := by
      unfold NewCommand at hnew
      cases args with
      | nil => simp at hnew
      | cons mainCmd execArgs =>
        simp only at hnew
        cases hstore : newEnvVarStore rawEnvVarList with
        | error e => simp [hstore] at hnew
        | ok envStore =>
          simp only [hstore] at hnew
          split at hnew
          · simp at hnew
          · injection hnew with hnew
            rw [← hnew]
    simp [Command.WriteTTY, h0]

/-- The relay loop on a source that signals end-of-input within `n` reads,
run with at least `n` iterations. -/
theorem copyLoop_of_end {ρ ω : Type} (Read : ρ → Nat → ReadResult × ρ)
    (Write : ω → List Byte → (Nat × Option GoError) × ω) (bufSize : Nat)
    (hsink : ∀ w p, (Write w p).1.2 = none) :
    ∀ (n fuel : Nat) (r : ρ) (w : ω),
      (∃ x ∈ readSeq Read bufSize n r, x.isEnd = true) → n ≤ fuel →
      (copyLoop Read Write bufSize fuel r w).ended = some CopyEnd.eof ∧
      (copyLoop Read Write bufSize fuel r w).reads
        = (readSeq Read bufSize n r).takeWhile (fun x => !x.isEnd) ++ [([], some GoError.EOF)] ∧
      (copyLoop Read Write bufSize fuel r w).writes
        = ((copyLoop Read Write bufSize fuel r w).reads.map Prod.fst).filter
            (fun d => decide (0 < d.length)) := by
  intro n
  induction n with
  | zero =>
    intro fuel r w hend
    simp [readSeq] at hend
  | succ n ih =>
    intro fuel r w hend hfuel
    obtain ⟨fuel, rfl⟩ : ∃ f, fuel = f + 1 := ⟨fuel - 1, by omega⟩
    have hf : n ≤ fuel := by omega
    rcases hR : Read r bufSize with ⟨⟨data, err⟩, r1⟩
    simp only [readSeq, hR, List.mem_cons] at hend
    by_cases hlen : data.length > 0
    · have hne : ReadResult.isEnd (data, err) = false := by
        cases data with
        | nil => simp at hlen
        | cons a l => simp [ReadResult.isEnd]
      rcases hW : Write w data with ⟨⟨nw, werr⟩, w1⟩
      have hwerr : werr = none := by simpa [hW] using hsink w data
      subst hwerr
      have hend1 : ∃ x ∈ readSeq Read bufSize n r1, x.isEnd = true := by
        obtain ⟨x, hx | hx, hxe⟩ := hend
        · rw [hx, hne] at hxe
          cases hxe
        · exact ⟨x, hx, hxe⟩
      obtain ⟨h1, h2, h3⟩ := ih fuel r1 w1 hend1 hf
      simp only [copyLoop, hR, hlen, if_true, hW, readSeq]
      refine ⟨h1, ?_, ?_⟩
      · rw [h2]
        simp [List.takeWhile_cons, hne]
      · rw [h3]
        simp [List.filter_cons, hlen]
    · have hnil : data = [] := by
        cases data with
        | nil => rfl
        | cons a l => simp at hlen
      subst hnil
      by_cases heof : err = some GoError.EOF
      · subst heof
        simp [copyLoop, hR, readSeq, List.takeWhile_cons, ReadResult.isEnd]
      · have hne : ReadResult.isEnd (([] : List Byte), err) = false := by
          simp [ReadResult.isEnd, heof]
        have hend1 : ∃ x ∈ readSeq Read bufSize n r1, x.isEnd = true := by
          obtain ⟨x, hx | hx, hxe⟩ := hend
          · rw [hx, hne] at hxe
            cases hxe
          · exact ⟨x, hx, hxe⟩
        obtain ⟨h1, h2, h3⟩ := ih fuel r1 w hend1 hf
        simp only [copyLoop, hR, readSeq]
        simp only [List.length_nil, gt_iff_lt, lt_self_iff_false, if_false, heof]
        refine ⟨h1, ?_, ?_⟩
        · rw [h2]
          simp [List.takeWhile_cons, hne]
        · rw [h3]
          simp [List.filter_cons]

theorem flatten_filter_nonempty (chunks : List (List Byte)) :
    (chunks.filter (fun d => decide (0 < d.length))).flatten = chunks.flatten := by
  induction chunks with
  | nil => rfl
  | cons d ds ih =>
    cases d with
    | nil => simpa [List.filter_cons] using ih
    | cons a l => simp [List.filter_cons, ih]

/-- C10: the stream relay preserves bytes and stops at end-of-input.  When the
sink accepts every write and the source signals end-of-input (a read of zero
bytes with `io.EOF`) within its first `n` reads, the loop of `copyBuffer` stops
by `break` within `n` iterations; the reads it made are those before the first
end-of-input, then that one; it wrote exactly the non-empty reads, in read
order; and the sink received the concatenation of the bytes read. -/
theorem copyBuffer_relays_until_eof {ρ ω : Type} (Read : ρ → Nat → ReadResult × ρ)
    (Write : ω → List Byte → (Nat × Option GoError) × ω) (reader : ρ) (w : ω)
    (bufSize n fuel : Nat)
    (hsink : ∀ w p, (Write w p).1.2 = none)
    (hend : ∃ x ∈ readSeq Read bufSize n reader, x.isEnd = true)
    (hfuel : n ≤ fuel) :
    (copyBuffer Read Write reader w bufSize fuel).ended = some CopyEnd.eof ∧
    (copyBuffer Read Write reader w bufSize fuel).reads
      = (readSeq Read bufSize n reader).takeWhile (fun x => !x.isEnd)
        ++ [([], some GoError.EOF)] ∧
    (copyBuffer Read Write reader w bufSize fuel).writes
      = ((copyBuffer Read Write reader w bufSize fuel).reads.map Prod.fst).filter
          (fun d => decide (0 < d.length)) ∧
    (copyBuffer Read Write reader w bufSize fuel).writes.flatten
      = ((copyBuffer Read Write reader w bufSize fuel).reads.map Prod.fst).flatten := by
  obtain ⟨h1, h2, h3⟩ := copyLoop_of_end Read Write bufSize hsink n fuel reader w hend hfuel
  refine ⟨h1, h2, h3, ?_⟩
  unfold copyBuffer
  rw [h3, flatten_filter_nonempty]

/-- The relay on `helloScript`: three reads, two writes, the three bytes reach the sink. -/
theorem copyBuffer_relays_until_eof_witness :
    (∀ w p, (sinkWrite w p).1.2 = none) ∧
    (∃ x ∈ readSeq scriptRead 1024 4 helloScript, x.isEnd = true) ∧
    (copyBuffer scriptRead sinkWrite helloScript [] 1024 9).ended = some CopyEnd.eof ∧
    (copyBuffer scriptRead sinkWrite helloScript [] 1024 9).writes = [[104, 105], [10]] ∧
    (copyBuffer scriptRead sinkWrite helloScript [] 1024 9).writer = [104, 105, 10] :=
  have hsink : ∀ w p, (sinkWrite w p).1.2 = none := fun _ _ => rfl
  have hend : ∃ x ∈ readSeq scriptRead 1024 4 helloScript, x.isEnd = true :=
    ⟨([], some GoError.EOF), by simp [readSeq, scriptRead, helloScript], rfl⟩
  ⟨hsink, hend,
    (copyBuffer_relays_until_eof scriptRead sinkWrite helloScript [] 1024 4 9 hsink hend
      (by decide)).1,
    rfl, rfl⟩

/-- The pre-exec failure of `brokenPreCommand` in pipe mode. -/
theorem Run_preExec_failure_witness :
    brokenPreCommand.cmd.Process = none ∧ allOk.stdoutPipe = none ∧ allOk.stderrPipe = none ∧
    (brokenPreCommand.OnPreExec 0).1 ≠ none ∧
    ∃ key hookErr,
      Event.preExec key (some hookErr) ∈ (brokenPreCommand.RunExec 254 allOk [] 0).events ∧
      (brokenPreCommand.RunExec 254 allOk [] 0).err
        = some (GoError.preCommandFailed (GoError.envVarFailed key hookErr)) ∧
      (brokenPreCommand.RunExec 254 allOk [] 0).spawned = false ∧
      (brokenPreCommand.RunExec 254 allOk [] 0).cmd = brokenPreCommand ∧
      (brokenPreCommand.RunExec 254 allOk [] 0).cmd.Pid = -1 ∧
      (∀ err, Event.start err ∉ (brokenPreCommand.RunExec 254 allOk [] 0).events) ∧
      (∀ ev ∈ (brokenPreCommand.RunExec 254 allOk [] 0).events, ev.isPostExec = false) ∧
      (brokenPreCommand.RunExec 254 allOk [] 0).events.filter Event.isOnExecEnd
        = [Event.onExecEnd 254 "internal error, failed executing pre command" []] :=
  ⟨rfl, rfl, rfl, by decide,
    Run_preExec_failure 254 allOk brokenPreCommand [] 0 rfl rfl rfl (by decide)⟩

/-- A start of `secretsCommand` whose executable is not found. -/
theorem Run_start_failure_witness :
    (254 : Int) ≠ 127 ∧ startNotFound.stdoutPipe = none ∧ startNotFound.stderrPipe = none ∧
    (secretsCommand.OnPreExec 0).1 = none ∧
    startNotFound.start = some (GoError.notFound "executable file not found in $PATH") ∧
    ∃ code : Int,
      (secretsCommand.RunExec 254 startNotFound [] 0).events.filter Event.isOnExecEnd
        = [Event.onExecEnd code "failed starting command" []] ∧
      (code = 127 ↔
        (GoError.notFound "executable file not found in $PATH").isErrNotFound = true) ∧
      ((GoError.notFound "executable file not found in $PATH").isErrNotFound = false →
        code = 254) ∧
      (secretsCommand.RunExec 254 startNotFound [] 0).err
        = some (GoError.notFound "executable file not found in $PATH") ∧
      (secretsCommand.RunExec 254 startNotFound [] 0).spawned = false ∧
      (secretsCommand.RunExec 254 startNotFound [] 0).cmd = secretsCommand ∧
      (∀ err, Event.wait err ∉ (secretsCommand.RunExec 254 startNotFound [] 0).events) ∧
      (∀ ev ∈ (secretsCommand.RunExec 254 startNotFound [] 0).events, ev.isPostExec = false) :=
  ⟨by decide, rfl, rfl, rfl, rfl,
    Run_start_failure 254 startNotFound secretsCommand [] 0
      (GoError.notFound "executable file not found in $PATH") (by decide) rfl rfl rfl rfl⟩

/-- The pre-exec hooks of `brokenPreCommand`: the first succeeds, the second
fails, the third is not called. -/
theorem OnPreExec_fail_fast_witness :
    brokenPreCommand.OnPreExec 0
      = (some (GoError.envVarFailed "KUBECONFIG" (GoError.ext "vault unreachable")), 2,
          [Event.preExec "DB_PASSWORD" none,
           Event.preExec "KUBECONFIG" (some (GoError.ext "vault unreachable"))]) ∧
    ((brokenPreCommand.OnPreExec 0).1 = none ↔
      ∀ key err, Event.preExec key err ∈ (brokenPreCommand.OnPreExec 0).2.2 → err = none) :=
  ⟨rfl, (OnPreExec_fail_fast brokenPreCommand 0).2⟩

/-- Exit status 3 of `secretsCommand`, one of whose post-exec hooks fails, in both modes. -/
theorem exit_status_reported_unchanged_witness :
    (0 : Int) ≤ 3 ∧ (3 : Int) ≤ 255 ∧
    exitsWith3.wait = (if (3 : Int) = 0 then none else some (GoError.exitError 3)) ∧
    (secretsCommand.Run 254 exitsWith3 [] 0).spawned = true ∧
    (secretsCommand.RunOnTTY exitsWith3 0).spawned = true ∧
    (secretsCommand.OnPostExec 2).1 ≠ none ∧
    (secretsCommand.RunExec 254 exitsWith3 [] 0).events.filter Event.isOnExecEnd
      = [Event.onExecEnd 3 "failed executing command, err=%v" [exitsWith3.wait]] ∧
    (secretsCommand.RunOnTTYExec exitsWith3 0).events.filter Event.isOnExecEnd
      = [Event.onExecEnd 3 "failed executing command, err=%v" [exitsWith3.wait]] :=
  ⟨by decide, by decide, rfl, rfl, rfl, by decide,
    (exit_status_reported_unchanged 254 3 exitsWith3 secretsCommand [] 0
      (by decide) (by decide) rfl).1 rfl,
    (exit_status_reported_unchanged 254 3 exitsWith3 secretsCommand [] 0
      (by decide) (by decide) rfl).2 rfl⟩

/-- Writing "abc" to `secretsCommand`, before and after a run in pipe mode. -/
theorem WriteTTY_noop_without_pty_witness :
    secretsCommand.ptty = none ∧
    secretsCommand.WriteTTY (fun _ p => (p.length, none)) [97, 98, 99]
      = ((0, none), secretsCommand, []) ∧
    (secretsCommand.RunExec 254 exitsWith3 [] 0).cmd.WriteTTY (fun _ p => (p.length, none))
        [97, 98, 99]
      = ((0, none), (secretsCommand.RunExec 254 exitsWith3 [] 0).cmd, []) :=
  ⟨rfl,
    (WriteTTY_noop_without_pty (fun _ p => (p.length, none)) secretsCommand [97, 98, 99]
      rfl).1,
    (WriteTTY_noop_without_pty (fun _ p => (p.length, none)) secretsCommand [97, 98, 99]
      rfl).2.1 254 exitsWith3 [] 0⟩

/-! ## Where the code departs from the documented behaviour -/

/-- Shape of every run of the post-exec loop: it is fail-fast like the
pre-exec loop.  Either all hooks succeeded, or the store splits at the first
entry whose hook failed and no hook of a later entry was called. -/
theorem onPostExecLoop_shape {σ : Type} (store : List (EnvVar σ)) (w : σ) :
    (∃ w1, onPostExecLoop store w = (none, w1, postExecCalls store)) ∨
    (∃ pre env post hook hookErr w0 w1,
      store = pre ++ env :: post ∧ env.OnPostExec = some hook ∧
      onPostExecLoop pre w = (none, w0, postExecCalls pre) ∧
      hook w0 = (some hookErr, w1) ∧
      onPostExecLoop store w =
        (some (GoError.envVarFailed env.Key hookErr), w1,
          postExecCalls pre ++ [Event.postExec env.Key (some hookErr)])) := by
  induction store generalizing w with
  | nil => exact Or.inl ⟨w, rfl⟩
  | cons env rest ih =>
    cases hpost : env.OnPostExec with
    | none =>
      rcases ih w with ⟨w1, h1⟩ | ⟨pre, e, post, hook, hookErr, w0, w1, hs, hh, hp, hf, hr⟩
      · left
        refine ⟨w1, ?_⟩
        simp [onPostExecLoop, hpost, h1, postExecCalls_cons_none env rest hpost]
      · right
        refine ⟨env :: pre, e, post, hook, hookErr, w0, w1, ?_, hh, ?_, hf, ?_⟩
        · simp [hs]
        · simp [onPostExecLoop, hpost, hp, postExecCalls_cons_none env pre hpost]
        · simp [onPostExecLoop, hpost, hr, postExecCalls_cons_none env pre hpost]
    | some hook =>
      cases hrun : hook w with
      | mk res w1 =>
        cases res with
        | some err =>
          right
          refine ⟨[], env, rest, hook, err, w, w1, rfl, hpost, rfl, hrun, ?_⟩
          simp [onPostExecLoop, hpost, hrun, postExecCalls]
        | none =>
          rcases ih w1 with ⟨w2, h2⟩ | ⟨pre, e, post, hk, hookErr, w0, w2, hs, hh, hp, hf, hr⟩
          · left
            refine ⟨w2, ?_⟩
            simp [onPostExecLoop, hpost, hrun, h2, postExecCalls_cons_some env rest hook hpost]
          · right
            refine ⟨env :: pre, e, post, hk, hookErr, w0, w2, ?_, hh, ?_, hf, ?_⟩
            · simp [hs]
            · simp [onPostExecLoop, hpost, hrun, hp, postExecCalls_cons_some env pre hook hpost]
            · simp [onPostExecLoop, hpost, hrun, hr, postExecCalls_cons_some env pre hook hpost]

/-- Order of the goroutine of `RunOnTTY`, for every outcome: the copy and the
wait come first, then the callback, then the close of the pseudo-terminal and
the post-exec hooks. -/
theorem RunOnTTYTask_order {σ : Type} (o : Outcomes) (c : Command σ) (w : σ) :
    ∃ before code after,
      (c.RunOnTTYTask o w).2
        = before ++ Event.onExecEnd code "failed executing command, err=%v" [o.wait] :: after ∧
      Event.wait o.wait ∈ before ∧
      (∀ ev ∈ before, ev.isPostExec = false ∧ ev ≠ Event.ptyClose o.ptyClose) ∧
      Event.ptyClose o.ptyClose ∈ after ∧
      (∀ ev ∈ (c.OnPostExec w).2.2, ev ∈ after) := by
  rcases hp : onPostExecLoop c.envStore.store w with ⟨perr, w1, evs⟩
  simp only [Command.RunOnTTYTask, Command.OnPostExec, hp]
  refine ⟨[Event.ioCopy o.ioCopy]
      ++ (match o.ioCopy with
          | some _ => [Event.log "failed copying stdout from tty, err=%v"]
          | none => [])
      ++ [Event.wait o.wait],
    (match o.wait with
     | none => 0
     | some e =>
       match e.asExitError with
       | some code => if code = -1 then 1 else code
       | none => 0),
    [Event.log "exit-code=%v - closing tty ...", Event.ptyClose o.ptyClose]
      ++ (match o.ptyClose with
          | some _ => [Event.log "failed closing tty, err=%v"]
          | none => [])
      ++ evs
      ++ (match perr with
          | some _ => [Event.log "failed executing post execution command, err=%v"]
          | none => []),
    ?_, ?_, ?_, ?_, ?_⟩
  · cases perr <;> simp [List.append_assoc]
  · simp
  · intro ev hev
    cases hio : o.ioCopy with
    | none =>
      simp only [hio, List.append_nil, List.singleton_append, List.mem_cons,
        List.mem_singleton, List.not_mem_nil, or_false] at hev
      rcases hev with h | h <;> subst h <;> simp [Event.isPostExec]
    | some e =>
      simp only [hio, List.singleton_append, List.cons_append, List.nil_append, List.mem_cons,
        List.mem_singleton, List.not_mem_nil, or_false] at hev
      rcases hev with h | h | h <;> subst h <;> simp [Event.isPostExec]
  · simp
  · intro ev hev
    simp [hev]

/-- The part of the abnormal-termination rule that the code implements: an
exit error whose exit code is -1 is reported as `InternalErrorExitCode` in
pipe mode and as 1 in interactive mode. -/
theorem exit_error_without_status {σ : Type} (iec : Int) (o : Outcomes) (c : Command σ)
    (w : σ) (hwait : o.wait = some (GoError.exitError (-1))) :
    (c.RunTask iec o w).2.filter Event.isOnExecEnd
      = [Event.onExecEnd iec "failed executing command, err=%v" [o.wait]] ∧
    (c.RunOnTTYTask o w).2.filter Event.isOnExecEnd
      = [Event.onExecEnd 1 "failed executing command, err=%v" [o.wait]] := by
  rw [RunTask_callbacks, RunOnTTYTask_callbacks]
  simp [hwait, GoError.asExitError]

/-- Every wait error that is not an exit error is reported with exit code 0,
in both modes. -/
theorem other_wait_error_code {σ : Type} (iec : Int) (o : Outcomes) (c : Command σ)
    (w : σ) (e : GoError) (hwait : o.wait = some e) (hne : e.asExitError = none) :
    (c.RunTask iec o w).2.filter Event.isOnExecEnd
      = [Event.onExecEnd 0 "failed executing command, err=%v" [o.wait]] ∧
    (c.RunOnTTYTask o w).2.filter Event.isOnExecEnd
      = [Event.onExecEnd 0 "failed executing command, err=%v" [o.wait]] := by
  rw [RunTask_callbacks, RunOnTTYTask_callbacks]
  simp [hwait, hne]



/-- C3: `OnPostExec` returns at the first post-exec hook that fails.  On a
store whose three entries all have a post-exec hook, the second of which
fails, the hook of the third entry, TOKEN, is never called: two hooks ran. -/
theorem OnPostExec_stops_at_first_failure :
    secretsCommand.envStore.store.map (fun env => (env.Key, env.OnPostExec.isSome))
      = [("DB_PASSWORD", true), ("KUBECONFIG", true), ("TOKEN", true)] ∧
    secretsCommand.OnPostExec 0
      = (some (GoError.envVarFailed "KUBECONFIG" (GoError.ext "vault unreachable")), 2,
          [Event.postExec "DB_PASSWORD" none,
           Event.postExec "KUBECONFIG" (some (GoError.ext "vault unreachable"))]) :=
  ⟨rfl, rfl⟩

/-- C4: in the goroutine of `RunOnTTY` the callback is called before the
deferred function closes the pseudo-terminal and runs the post-exec hooks. -/
theorem RunOnTTYTask_callback_before_teardown :
    (oneHookCommand.RunOnTTYTask allOk 0).2
      = [Event.ioCopy none, Event.wait none,
         Event.onExecEnd 0 "failed executing command, err=%v" [none],
         Event.log "exit-code=%v - closing tty ...", Event.ptyClose none,
         Event.postExec "KUBECONFIG" none] :=
  rfl

/-- C2: a wait error that is not an exit error is reported with exit code 0,
in pipe mode and in interactive mode. -/
theorem wait_error_reported_as_zero :
    waitNoChild.wait = some (GoError.ext "wait: no child processes") ∧
    (oneHookCommand.RunExec 254 waitNoChild [] 0).events.filter Event.isOnExecEnd
      = [Event.onExecEnd 0 "failed executing command, err=%v"
          [some (GoError.ext "wait: no child processes")]] ∧
    (oneHookCommand.RunOnTTYExec waitNoChild 0).events.filter Event.isOnExecEnd
      = [Event.onExecEnd 0 "failed executing command, err=%v"
          [some (GoError.ext "wait: no child processes")]] :=
  ⟨rfl, rfl, rfl⟩

/-! ## The callback count with the relays running -/

/-- A relay never calls the callback. -/
theorem countOnExecEnd_relayStep {ρ ω : Type} (Read : ρ → Nat → ReadResult × ρ)
    (Write : ω → List Byte → (Nat × Option GoError) × ω) (pipe : String) (r : ρ) (sink : ω) :
    countOnExecEnd (relayStep Read Write pipe r sink).2.2.1 = 0 := by
  cases hres : (copyBuffer Read Write r sink 1024 1).ended with
  | none =>
    simp only [relayStep, hres]
    apply countOnExecEnd_eq_zero
    intro e he
    simp only [List.mem_map] at he
    obtain ⟨d, _, hd⟩ := he
    rw [← hd]
    rfl
  | some ending =>
    cases ending with
    | eof => simp [relayStep, hres, countOnExecEnd]
    | panicked err => simp [relayStep, hres, countOnExecEnd]

/-- A relay does not panic when the sink accepts every write. -/
theorem relayStep_no_panic {ρ ω : Type} (Read : ρ → Nat → ReadResult × ρ)
    (Write : ω → List Byte → (Nat × Option GoError) × ω) (pipe : String) (r : ρ) (sink : ω)
    (hsink : ∀ w p, (Write w p).1.2 = none) :
    (relayStep Read Write pipe r sink).2.2.2 = false := by
  have hended : ∀ err, (copyBuffer Read Write r sink 1024 1).ended
      ≠ some (CopyEnd.panicked err) := by
    intro err
    rcases hR : Read r 1024 with ⟨⟨data, rerr⟩, r1⟩
    by_cases hlen : data.length > 0
    · rcases hW : Write sink data with ⟨⟨nw, werr⟩, w1⟩
      have hwerr : werr = none := by simpa [hW] using hsink sink data
      subst hwerr
      simp [copyBuffer, copyLoop, hR, hlen, hW]
    · by_cases heof : rerr = some GoError.EOF
      · simp [copyBuffer, copyLoop, hR, hlen, heof]
      · simp [copyBuffer, copyLoop, hR, hlen, heof]
  cases hres : (copyBuffer Read Write r sink 1024 1).ended with
  | none => simp [relayStep, hres]
  | some ending =>
    cases ending with
    | eof => simp [relayStep, hres]
    | panicked err => exact absurd hres (hended err)

/-- A step moves callback calls from the pending actions to the events and
neither adds nor drops one. -/
theorem step_countOnExecEnd {ρ ω : Type} (Read : ρ → Nat → ReadResult × ρ)
    (Write : ω → List Byte → (Nat × Option GoError) × ω) (s : Running ρ ω) (g : Goroutine) :
    countOnExecEnd (s.step Read Write g).events + countOnExecEnd (s.step Read Write g).pending
      = countOnExecEnd s.events + countOnExecEnd s.pending := by
  unfold Running.step
  cases hc : s.crashed with
  | true => simp
  | false =>
    cases g with
    | waitTask =>
      cases hp : s.pending with
      | nil => simp [hp]
      | cons e rest =>
        simp only [Bool.false_eq_true, if_false, countOnExecEnd_append]
        cases e <;> simp [countOnExecEnd]; omega
    | stdoutRelay =>
      cases hr : s.stdoutRelay with
      | none => simp [hr]
      | some r =>
        have h := countOnExecEnd_relayStep Read Write "stdout" r s.sink
        simp [countOnExecEnd_append, h]
    | stderrRelay =>
      cases hr : s.stderrRelay with
      | none => simp [hr]
      | some r =>
        have h := countOnExecEnd_relayStep Read Write "stderr" r s.sink
        simp [countOnExecEnd_append, h]

/-- The same over a whole schedule. -/
theorem schedule_countOnExecEnd {ρ ω : Type} (Read : ρ → Nat → ReadResult × ρ)
    (Write : ω → List Byte → (Nat × Option GoError) × ω) (schedule : List Goroutine)
    (s : Running ρ ω) :
    countOnExecEnd (schedule.foldl (Running.step Read Write) s).events
        + countOnExecEnd (schedule.foldl (Running.step Read Write) s).pending
      = countOnExecEnd s.events + countOnExecEnd s.pending := by
  induction schedule generalizing s with
  | nil => rfl
  | cons g rest ih =>
    rw [List.foldl_cons, ih, step_countOnExecEnd]

/-- With a sink that accepts every write a step never crashes, and only a step
of the wait goroutine consumes a pending action. -/
theorem step_no_panic {ρ ω : Type} (Read : ρ → Nat → ReadResult × ρ)
    (Write : ω → List Byte → (Nat × Option GoError) × ω) (s : Running ρ ω) (g : Goroutine)
    (hsink : ∀ w p, (Write w p).1.2 = none) (hs : s.crashed = false) :
    (s.step Read Write g).crashed = false ∧
    (s.step Read Write g).pending = s.pending.drop ([g].count Goroutine.waitTask) := by
  unfold Running.step
  cases g with
  | waitTask =>
    cases hp : s.pending with
    | nil => simp [hs, hp]
    | cons e rest => simp [hs]
  | stdoutRelay =>
    cases hr : s.stdoutRelay with
    | none => simp [hs, hr]
    | some r =>
      have h := relayStep_no_panic Read Write "stdout" r s.sink hsink
      simp [hs, h]
  | stderrRelay =>
    cases hr : s.stderrRelay with
    | none => simp [hs, hr]
    | some r =>
      have h := relayStep_no_panic Read Write "stderr" r s.sink hsink
      simp [hs, h]

/-- The same over a whole schedule. -/
theorem schedule_no_panic {ρ ω : Type} (Read : ρ → Nat → ReadResult × ρ)
    (Write : ω → List Byte → (Nat × Option GoError) × ω) (schedule : List Goroutine)
    (s : Running ρ ω) (hsink : ∀ w p, (Write w p).1.2 = none) (hs : s.crashed = false) :
    (schedule.foldl (Running.step Read Write) s).crashed = false ∧
    (schedule.foldl (Running.step Read Write) s).pending
      = s.pending.drop (schedule.count Goroutine.waitTask) := by
  induction schedule generalizing s with
  | nil => simp [hs]
  | cons g rest ih =>
    obtain ⟨h1, h2⟩ := step_no_panic Read Write s g hsink hs
    obtain ⟨h3, h4⟩ := ih (s.step Read Write g) h1
    rw [List.foldl_cons]
    refine ⟨h3, ?_⟩
    rw [h4, h2, List.drop_drop]
    congr 1
    cases g <;> simp [List.count_cons]; omega

/-- In every pipe-mode execution, whatever the sink and the schedule, the
callback is called at most once, and exactly once when the wait goroutine has
no action left. -/
theorem countOnExecEnd_RunScheduled {σ ρ ω : Type} (iec : Int) (o : Outcomes)
    (c : Command σ) (stdinInput : List Byte) (w : σ)
    (Read : ρ → Nat → ReadResult × ρ) (Write : ω → List Byte → (Nat × Option GoError) × ω)
    (pipeStdout pipeStderr : ρ) (streamWriter : ω) (schedule : List Goroutine) :
    countOnExecEnd (c.RunScheduled iec o stdinInput w Read Write pipeStdout pipeStderr
        streamWriter schedule).events
      + countOnExecEnd (c.RunScheduled iec o stdinInput w Read Write pipeStdout pipeStderr
        streamWriter schedule).pending = 1 := by
  have hrun := countOnExecEnd_Run iec o c stdinInput w
  cases hs : (c.Run iec o stdinInput w).spawned with
  | false =>
    rw [hs] at hrun
    simp only [Command.RunScheduled, hs, Bool.false_eq_true, if_false, countOnExecEnd]
    simpa using hrun
  | true =>
    rw [hs] at hrun
    simp only [Command.RunScheduled, hs, if_true]
    rw [schedule_countOnExecEnd]
    simp only [countOnExecEnd_RunTask]
    simp at hrun
    omega

/-- C1, as the code has it: the completion callback is invoked exactly once per
run unless a relay panics.  In pipe mode, when the sink accepts every write
and the wait goroutine is scheduled until its end, the process does not panic
and a whole execution of `Run` with its relays and its wait goroutine calls
`onExecEnd` exactly once, whatever the environment answers (pipe failure,
pre-exec hook failure, start failure, stdin write failure, any wait outcome).
With any sink and any schedule it is called at most once.  A whole execution
of `RunOnTTY` calls it exactly once when `RunOnTTY` returns nil and never when
it returns an error. -/
theorem onExecEnd_once_unless_relay_panics {σ ρ ω : Type} (iec : Int) (o : Outcomes)
    (c : Command σ) (stdinInput : List Byte) (w : σ)
    (Read : ρ → Nat → ReadResult × ρ) (Write : ω → List Byte → (Nat × Option GoError) × ω)
    (pipeStdout pipeStderr : ρ) (streamWriter : ω) (schedule : List Goroutine)
    (hsink : ∀ w p, (Write w p).1.2 = none)
    (hsched : (c.Run iec o stdinInput w).spawned = true →
      ((c.Run iec o stdinInput w).cmd.RunTask iec o (c.Run iec o stdinInput w).world).2.length
        ≤ schedule.count Goroutine.waitTask) :
    (c.RunScheduled iec o stdinInput w Read Write pipeStdout pipeStderr streamWriter
        schedule).crashed = false ∧
    (c.RunScheduled iec o stdinInput w Read Write pipeStdout pipeStderr streamWriter
        schedule).pending = [] ∧
    countOnExecEnd (c.RunScheduled iec o stdinInput w Read Write pipeStdout pipeStderr
        streamWriter schedule).events = 1 ∧
    (∀ (anyWrite : ω → List Byte → (Nat × Option GoError) × ω) (anySchedule : List Goroutine),
      countOnExecEnd (c.RunScheduled iec o stdinInput w Read anyWrite pipeStdout pipeStderr
        streamWriter anySchedule).events ≤ 1) ∧
    ((c.RunOnTTYExec o w).err = none → countOnExecEnd (c.RunOnTTYExec o w).events = 1) ∧
    ((c.RunOnTTYExec o w).err ≠ none → countOnExecEnd (c.RunOnTTYExec o w).events = 0) := by
  have hsum := countOnExecEnd_RunScheduled iec o c stdinInput w Read Write pipeStdout
    pipeStderr streamWriter schedule
  have hstate :
      (c.RunScheduled iec o stdinInput w Read Write pipeStdout pipeStderr streamWriter
          schedule).crashed = false ∧
      (c.RunScheduled iec o stdinInput w Read Write pipeStdout pipeStderr streamWriter
          schedule).pending = [] := by
    cases hs : (c.Run iec o stdinInput w).spawned with
    | false => simp [Command.RunScheduled, hs]
    | true =>
      simp only [Command.RunScheduled, hs, if_true]
      obtain ⟨h1, h2⟩ := schedule_no_panic Read Write schedule
        { stdoutRelay := some pipeStdout, stderrRelay := some pipeStderr,
          sink := streamWriter,
          pending := ((c.Run iec o stdinInput w).cmd.RunTask iec o
            (c.Run iec o stdinInput w).world).2,
          events := (c.Run iec o stdinInput w).events, crashed := false } hsink rfl
      refine ⟨h1, ?_⟩
      rw [h2]
      exact List.drop_eq_nil_of_le (hsched hs)
  refine ⟨hstate.1, hstate.2, ?_, ?_, (countOnExecEnd_main_line iec o c stdinInput w).2⟩
  · rw [hstate.2] at hsum
    simpa [countOnExecEnd] using hsum
  · intro anyWrite anySchedule
    have h := countOnExecEnd_RunScheduled iec o c stdinInput w Read anyWrite pipeStdout
      pipeStderr streamWriter anySchedule
    omega

/-- A run of `secretsCommand` whose relays and wait goroutine take turns, with a
sink that accepts every write. -/
theorem onExecEnd_once_unless_relay_panics_witness :
    (∀ w p, (sinkWrite w p).1.2 = none) ∧
    ((secretsCommand.Run 254 allOk [] 0).spawned = true →
      ((secretsCommand.Run 254 allOk [] 0).cmd.RunTask 254 allOk
          (secretsCommand.Run 254 allOk [] 0).world).2.length
        ≤ roundRobin.count Goroutine.waitTask) ∧
    (secretsCommand.Run 254 allOk [] 0).spawned = true ∧
    (secretsCommand.RunScheduled 254 allOk [] 0 scriptRead sinkWrite helloScript [] []
        roundRobin).crashed = false ∧
    (secretsCommand.RunScheduled 254 allOk [] 0 scriptRead sinkWrite helloScript [] []
        roundRobin).sink = [104, 105, 10] ∧
    countOnExecEnd (secretsCommand.RunScheduled 254 allOk [] 0 scriptRead sinkWrite helloScript
        [] [] roundRobin).events = 1 :=
  have hsink : ∀ w p, (sinkWrite w p).1.2 = none := fun _ _ => rfl
  have hsched : (secretsCommand.Run 254 allOk [] 0).spawned = true →
      ((secretsCommand.Run 254 allOk [] 0).cmd.RunTask 254 allOk
          (secretsCommand.Run 254 allOk [] 0).world).2.length
        ≤ roundRobin.count Goroutine.waitTask := fun _ => by decide
  ⟨hsink, hsched, rfl,
    (onExecEnd_once_unless_relay_panics 254 allOk secretsCommand [] 0 scriptRead sinkWrite
      helloScript [] [] roundRobin hsink hsched).1,
    rfl,
    (onExecEnd_once_unless_relay_panics 254 allOk secretsCommand [] 0 scriptRead sinkWrite
      helloScript [] [] roundRobin hsink hsched).2.2.1⟩

/-- C1 as stated fails: a run of `Run` that starts the process and whose `Wait`
has returned, but whose stdout relay then fails to write to the sink.  The
relay panics, the process ends, and the callback is never called, however
often the wait goroutine is scheduled afterwards. -/
theorem onExecEnd_lost_when_relay_panics :
    (secretsCommand.Run 254 allOk [] 0).err = none ∧
    (secretsCommand.Run 254 allOk [] 0).spawned = true ∧
    (secretsCommand.RunScheduled 254 allOk [] 0 scriptRead brokenSink helloScript [] []
        waitThenRelay).events
      = [Event.stdoutPipe none, Event.stderrPipe none,
         Event.preExec "DB_PASSWORD" none, Event.preExec "KUBECONFIG" none,
         Event.start none, Event.stdinWrite [] none,
         Event.copyBuffer "stdout" 1024, Event.copyBuffer "stderr" 1024,
         Event.wait none, Event.panicked (GoError.ext "write: broken pipe")] ∧
    (secretsCommand.RunScheduled 254 allOk [] 0 scriptRead brokenSink helloScript [] []
        waitThenRelay).crashed = true ∧
    countOnExecEnd (secretsCommand.RunScheduled 254 allOk [] 0 scriptRead brokenSink helloScript
        [] [] waitThenRelay).events = 0 ∧
    ¬ countOnExecEnd (secretsCommand.RunScheduled 254 allOk [] 0 scriptRead brokenSink
        helloScript [] [] waitThenRelay).events = 1 :=
  ⟨rfl, rfl, rfl, rfl, rfl, by decide⟩

end Exec
